import Mathlib

/-!
Shallow embedding of `src/alfa-cpp/include/topic.h` (class `alfa::Topic`).

Conventions of the embedding:
* A CSV file is modelled after tokenization: `Option (List (List String))`.
  `none` is a file that cannot be opened; `some []` is an open file with no
  readable header line; `some (hdr :: rows)` gives the token list of the
  header line followed by the token lists of the data lines.  Tokenization
  itself (`Commons::Tokenize` with `Commons::CSVDelimiter`) is an external
  collaborator per the spec and is not part of this core.
* The string constants `Commons::CSVFieldsPrefix` and
  `Commons::FaultTopicPrefix` live in `commons.h`, which is not in `src/`;
  they are threaded through as explicit parameters `p` and `fp`.
* `std::cerr` diagnostics of `ReadFromFile` are modelled as a list of
  `LoadError` values returned alongside the state and the `bool` result.
* C++ `int` widths are modelled as `Nat` (they only ever hold string
  lengths and maxima of string lengths, so they stay non-negative);
  the `int` arguments of `Print` are modelled as `Int`.
-/

namespace Alfa

/-- Models `std::setw w << s` followed by `<<` with the default right
adjustment: pads `s` on the left with spaces up to width `w`, and leaves
`s` unchanged when it is already at least `w` characters wide. -/
def setw (w : Nat) (s : String) : String :=
  String.mk (List.replicate (w - s.length) ' ') ++ s

/-- Header string `hdr_ind` of `Topic` (topic.h line 79). -/
def hdr_ind : String := "Index"

/-- Header string `hdr_datetime` of `Topic` (topic.h line 79). -/
def hdr_datetime : String := "Date/Time Stamp"

/-- Header string `hdr_seq` of `Topic` (topic.h line 80). -/
def hdr_seq : String := "SeqID"

/-- Header string `hdr_stamp` of `Topic` (topic.h line 80). -/
def hdr_stamp : String := "Time Stamp"

/-- Header string `hdr_frid` of `Topic` (topic.h line 80). -/
def hdr_frid : String := "Frame"

/-- Is the raw label one of the three header-triple marker strings for
field-name prefix `p` (the three comparisons of topic.h lines 313-315)? -/
def isTripleMarker (p l : String) : Bool :=
  l == p ++ "header.seq" || l == p ++ "header.stamp" || l == p ++ "header.frame_id"

/-- Per-label classification of `ProcessHeader` as one `Option`-valued map:
`none` when the raw label is excluded from `FieldLabels` (the `%time`
column and the three header-triple markers), `some` of the normalized
label otherwise, with the field-name prefix `p` stripped when the label
starts with it (topic.h lines 310-325). -/
def keepLabel (p l : String) : Option String :=
  if l = "%time" then none
  else if isTripleMarker p l then none
  else if l.take p.length = p then some (l.drop p.length)
  else some l

/-- Modelled from the spec: the `Message` record type of `message.h`, which
is not in `src/`.  Per spec sections 3 and 6, a record carries a formatted
timestamp string (`DateTime.ToString()`), the header-triple values
(sequence id, timestamp, frame id) and the ordered generic field values;
the record is otherwise opaque to this core. -/
structure Message where
  dateTime : String
  seqID : String
  stamp : String
  frameID : String
  fields : List String
deriving Repr, DecidableEq, Inhabited

/-- First token whose label matches `target`, or `""` when no column has
that label.  Helper for the spec-modelled `Message.TokensToMessage`. -/
def tokenAt (tokens labels : List String) (target : String) : String :=
  match labels.findIdx? (fun l => l = target) with
  | some i => tokens.getD i ""
  | none => ""

/-- Tokens of the generic-field columns, in order: the tokens whose labels
are neither the `%time` marker nor one of the three header-triple markers.
Helper for the spec-modelled `Message.TokensToMessage`. -/
def genericTokens (p : String) : List String → List String → List String
  | [], _ => []
  | _ :: _, [] => []
  | l :: ls, t :: ts =>
    if l = "%time" ∨ isTripleMarker p l then genericTokens p ls ts
    else t :: genericTokens p ls ts

/-- Modelled from the spec: `Message::TokensToMessage` of `message.h`,
which is not in `src/`.  Per spec sections 2 and 6 it receives one row's
tokens and the raw header labels and returns the typed record together
with the minimum display widths that row requires for the
sequence-id/timestamp/frame-id fields and for each generic field; per
spec section 4.2 the generic width list has one entry per generic-field
column.  The widths are the lengths of the rendered token strings. -/
def Message.TokensToMessage (p : String) (tokens labels : List String) :
    Message × Nat × Nat × Nat × List Nat :=
  let seqID := tokenAt tokens labels (p ++ "header.seq")
  let stamp := tokenAt tokens labels (p ++ "header.stamp")
  let frameID := tokenAt tokens labels (p ++ "header.frame_id")
  let dateTime := tokenAt tokens labels "%time"
  let gtoks := genericTokens p labels tokens
  (⟨dateTime, seqID, stamp, frameID, gtoks⟩,
    seqID.length, stamp.length, frameID.length, gtoks.map String.length)

/-- Modelled from the spec: `Message::ToString` of `message.h`, which is
not in `src/`.  Per spec section 6 the record's render method takes the
three scalar widths, the generic-field widths, the triple-present flag
and the separator and returns one formatted line: the formatted
timestamp, then (only when the triple is present) the padded
sequence-id/timestamp/frame-id values, then each generic field padded to
its tracked width. -/
def Message.toLine (m : Message) (lseq lstamp lfrid : Nat) (lfields : List Nat)
    (hasHeader : Bool) (sep : String) : String :=
  m.dateTime
    ++ (if hasHeader then
          sep ++ setw lseq m.seqID ++ sep ++ setw lstamp m.stamp
            ++ sep ++ setw lfrid m.frameID
        else "")
    ++ String.join ((m.fields.enum.map
          (fun ti => sep ++ setw (lfields.getD ti.1 0) ti.2)))

/-- State of one `alfa::Topic` object: the public data members of topic.h
lines 41-44 and the private data members of lines 63-83. -/
structure TopicState where
  Name : String
  FileName : String
  FieldLabels : List String
  Messages : List Message
  is_initialized : Bool
  is_fault_topic : Bool
  len_seqid : Nat
  len_stamp : Nat
  len_frameid : Nat
  len_fields : List Nat
  orig_field_labels : List String
  has_header : Bool
deriving Repr, DecidableEq

/-- A freshly constructed `Topic` before any load: the in-class
initializers of topic.h (`Name = "N/A"`, everything else empty/zero). -/
def initTopic : TopicState :=
  ⟨"N/A", "", [], [], false, false, 0, 0, 0, [], [], false⟩

/-- `Topic::Clear` (topic.h lines 257-271): resets every field to its
empty/zero default. -/
def Topic.Clear (_st : TopicState) : TopicState :=
  ⟨"", "", [], [], false, false, 0, 0, 0, [], [], false⟩

/-- The extend-or-max loop of `Topic::TokensToMessage` (topic.h lines
291-297): entries of the incoming row-width list are folded into the
tracked per-field widths by pointwise `max`, and widths at fresh indices
are appended. -/
def mergeWidths : List Nat → List Nat → List Nat
  | old, [] => old
  | [], l :: ls => l :: mergeWidths [] ls
  | o :: os, l :: ls => max o l :: mergeWidths os ls

/-- `Topic::TokensToMessage` (topic.h lines 278-301): converts the tokens
to a message through the `Message` collaborator and folds the returned
per-row widths into the tracked maxima. -/
def Topic.TokensToMessage (p : String) (st : TopicState) (tokens : List String) :
    TopicState × Message :=
  let r := Message.TokensToMessage p tokens st.orig_field_labels
  ({ st with
      len_seqid := max st.len_seqid r.2.1
      len_stamp := max st.len_stamp r.2.2.1
      len_frameid := max st.len_frameid r.2.2.2.1
      len_fields := mergeWidths st.len_fields r.2.2.2.2 }, r.1)

/-- The label loop of `Topic::ProcessHeader` (topic.h lines 307-326):
walks the raw labels in order, skipping `%time`, recording and skipping
the header-triple markers, and appending every other label to
`FieldLabels` with the prefix stripped when present. -/
def processHeaderLoop (p : String) (st : TopicState) : List String → TopicState
  | [] => st
  | l :: ls =>
    if l = "%time" then processHeaderLoop p st ls
    else if isTripleMarker p l then
      processHeaderLoop p { st with has_header := true } ls
    else if l.take p.length = p then
      processHeaderLoop p
        { st with FieldLabels := st.FieldLabels ++ [l.drop p.length] } ls
    else
      processHeaderLoop p { st with FieldLabels := st.FieldLabels ++ [l] } ls

/-- The width-finalization loop of `Topic::ProcessHeader` (topic.h lines
332-336): raises each tracked per-field width to at least the length of
its normalized label, stopping (`break`) as soon as the width list runs
out, and leaving widths beyond the label list unchanged. -/
def finalizeFields : List Nat → List String → List Nat
  | ws, [] => ws
  | [], _ :: _ => []
  | w :: ws, l :: ls => max w l.length :: finalizeFields ws ls

/-- `Topic::ProcessHeader` (topic.h lines 304-337): the label loop
followed by raising the scalar widths to the lengths of their header
strings and finalizing the per-field widths against the normalized
labels. -/
def Topic.ProcessHeader (p : String) (st : TopicState) : TopicState :=
  let st1 := processHeaderLoop p st st.orig_field_labels
  { st1 with
      len_seqid := max st1.len_seqid hdr_seq.length
      len_stamp := max st1.len_stamp hdr_stamp.length
      len_frameid := max st1.len_frameid hdr_frid.length
      len_fields := finalizeFields st1.len_fields st1.FieldLabels }

/-- The padding loop of `Topic::ReadFromFile` (topic.h lines 144-145):
appends empty tokens until the row has at least `n` tokens. -/
def padTokens (tokens : List String) (n : Nat) : List String :=
  tokens ++ List.replicate (n - tokens.length) ""

/-- Diagnostics `Topic::ReadFromFile` writes to `std::cerr`: failure to
open the file (line 120), failure to read the header (line 130), and a
data row with more tokens than the header, tagged with its 1-based data
row number (line 150). -/
inductive LoadError where
  | IOError : LoadError
  | MissingHeader : LoadError
  | RowOverflow : Nat → LoadError
deriving Repr, DecidableEq

/-- The data-row loop of `Topic::ReadFromFile` (topic.h lines 134-156):
each row is padded with empty tokens up to the header's column count; a
row that still has more tokens than the header stops the loop with a
`RowOverflow` diagnostic carrying the 1-based row number; every other row
is converted to a message and appended. -/
def readRows (p : String) (st : TopicState) : List (List String) → Nat → TopicState × List LoadError
  | [], _ => (st, [])
  | row :: rest, n =>
    let tokens := padTokens row st.orig_field_labels.length
    if st.orig_field_labels.length < tokens.length then
      (st, [LoadError.RowOverflow (n + 1)])
    else
      let r := Topic.TokensToMessage p st tokens
      readRows p { r.1 with Messages := r.1.Messages ++ [r.2] } rest (n + 1)

/-- `Topic::ReadFromFile` (topic.h lines 102-172) with field-name prefix
`p` and fault-topic prefix `fp`: clears the object keeping the topic
name, stores the filename, fails on an unopenable file or a missing
header line, otherwise reads the data rows, postprocesses the header,
classifies the fault flag from the name and marks the topic initialized.
Returns the new state, the `bool` result and the emitted diagnostics. -/
def Topic.ReadFromFile (p fp : String) (st : TopicState) (filename : String)
    (file : Option (List (List String))) : TopicState × Bool × List LoadError :=
  let topic_name := st.Name
  let st := Topic.Clear st
  let st := { st with FileName := filename, Name := topic_name }
  match file with
  | none => (st, false, [LoadError.IOError])
  | some [] => (st, false, [LoadError.MissingHeader])
  | some (hdr :: rows) =>
    let st := { st with orig_field_labels := hdr }
    let r := readRows p st rows 0
    let st := Topic.ProcessHeader p r.1
    let st := { st with
      is_fault_topic :=
        if fp.length ≤ st.Name.length then st.Name.take fp.length == fp
        else st.is_fault_topic }
    let st := { st with is_initialized := true }
    (st, st.is_initialized, r.2)

/-- `Topic::IsInitialized` (topic.h lines 240-243). -/
def Topic.IsInitialized (st : TopicState) : Bool :=
  st.is_initialized

/-- `Topic::IsFaultTopic` (topic.h lines 246-249). -/
def Topic.IsFaultTopic (st : TopicState) : Bool :=
  st.is_fault_topic

/-- `Topic::HasHeaderField` (topic.h lines 251-254). -/
def Topic.HasHeaderField (st : TopicState) : Bool :=
  st.has_header

/-- `Topic::PrintHeader` (topic.h lines 208-237): returns the text written
to `std::cout` (with the terminating newline) together with the `int`
value returned, which the source computes as the sum of the label widths
and separator widths (lines 217-220).  With zero messages nothing is
printed and 0 is returned. -/
def Topic.PrintHeader (st : TopicState) (sep : String) : String × Nat :=
  match st.Messages with
  | [] => ("", 0)
  | m :: _ =>
    let len_datetime := m.dateTime.length
    let total_len := hdr_ind.length + len_datetime + st.len_seqid + st.len_stamp
        + st.len_frameid
        + ((List.range st.FieldLabels.length).map (fun i => st.len_fields.getD i 0)).sum
        + (6 + st.FieldLabels.length) * sep.length
    let out := sep ++ hdr_ind ++ sep ++ setw len_datetime hdr_datetime
        ++ (if st.has_header then
              sep ++ setw st.len_seqid hdr_seq ++ sep ++ setw st.len_stamp hdr_stamp
                ++ sep ++ setw st.len_frameid hdr_frid
            else "")
        ++ String.join (st.FieldLabels.enum.map
              (fun li => sep ++ setw (st.len_fields.getD li.1 0) li.2))
        ++ sep ++ "\n"
    (out, total_len)

/-- One data line of `Topic::Print` (topic.h lines 196-198): separator,
padded index, separator, the message rendered by its own `ToString`,
separator, newline. -/
def printedLine (st : TopicState) (sep : String) (i : Int) : String :=
  sep ++ setw hdr_ind.length (toString i) ++ sep
    ++ (st.Messages.getD i.toNat default).toLine st.len_seqid st.len_stamp
        st.len_frameid st.len_fields st.has_header sep
    ++ sep ++ "\n"

/-- The message loop of `Topic::Print` (topic.h lines 193-200): prints the
messages with index `i`, `i+1`, ... while the index is below `stop` and
below the message count, returning the printed text and the number of
printed messages. -/
def printLoop (st : TopicState) (sep : String) (stop i : Int) : String × Nat :=
  if h : i < stop ∧ i < (st.Messages.length : Int) then
    let rest := printLoop st sep stop (i + 1)
    (printedLine st sep i ++ rest.1, rest.2 + 1)
  else ("", 0)
termination_by (stop - i).toNat
decreasing_by
  omega

/-- `Topic::Print` (topic.h lines 176-204): returns the text written to
`std::cout` and the `int` value returned.  A negative start index returns
0 with no output; a negative message count means all messages; otherwise
the header is printed, then a dash rule of the returned header length,
then the selected messages, and the number of printed messages is
returned. -/
def Topic.Print (st : TopicState) (n_start n_messages : Int) (sep : String) :
    String × Nat :=
  if n_start < 0 then ("", 0)
  else
    let n_messages := if n_messages < 0 then (st.Messages.length : Int) else n_messages
    let h := Topic.PrintHeader st sep
    let dashes := String.mk (List.replicate h.2 '-') ++ "\n"
    let r := printLoop st sep (n_start + n_messages) n_start
    (h.1 ++ dashes ++ r.1, r.2)

/-- The message built from one data row of a file whose header tokens are
`hdr`: the row is padded to the header's column count and handed to the
`Message` collaborator. -/
def rowMsg (p : String) (hdr : List String) (row : List String) : Message :=
  (Message.TokensToMessage p (padTokens row hdr.length) hdr).1

/-- Fault classification of topic.h lines 162-166 as one boolean: the name
is at least as long as the fault-topic prefix and starts with it. -/
def faultFlag (fp name : String) : Bool :=
  decide (fp.length ≤ name.length) && (name.take fp.length == fp)

/-! ## Basic lemmas about the helper functions -/

theorem padTokens_length (tokens : List String) (n : Nat) :
    (padTokens tokens n).length = max tokens.length n := by
  simp [padTokens]
  omega

theorem mergeWidths_length (b a : List Nat) :
    (mergeWidths a b).length = max a.length b.length := by
  induction b generalizing a with
  | nil => simp [mergeWidths]
  | cons l ls ih =>
    cases a with
    | nil =>
      simp [mergeWidths, ih]
    | cons o os =>
      simp [mergeWidths, ih]
      omega

theorem genericTokens_length (p : String) (labels : List String) :
    ∀ tokens : List String, tokens.length = labels.length →
      (genericTokens p labels tokens).length
        = (labels.filterMap (keepLabel p)).length := by
  induction labels with
  | nil =>
    intro tokens h
    simp [genericTokens]
  | cons l ls ih =>
    intro tokens h
    cases tokens with
    | nil => simp at h
    | cons t ts =>
      simp only [List.length_cons, Nat.succ.injEq] at h
      by_cases h1 : l = "%time"
      · simp [genericTokens, keepLabel, h1, ih ts h]
      · by_cases h2 : isTripleMarker p l
        · simp [genericTokens, keepLabel, h1, h2, ih ts h]
        · by_cases h3 : l.take p.length = p
          · simp [genericTokens, keepLabel, h1, h2, h3, ih ts h]
          · simp [genericTokens, keepLabel, h1, h2, h3, ih ts h]

theorem finalizeFields_length (ws : List Nat) :
    ∀ ls : List String, (finalizeFields ws ls).length = ws.length := by
  induction ws with
  | nil => intro ls; cases ls <;> simp [finalizeFields]
  | cons w ws ih =>
    intro ls
    cases ls with
    | nil => simp [finalizeFields]
    | cons l ls => simp [finalizeFields, ih]

theorem finalizeFields_getD (ws : List Nat) :
    ∀ (ls : List String) (i : Nat), i < ls.length → i < ws.length →
      (ls.getD i "").length ≤ (finalizeFields ws ls).getD i 0 := by
  induction ws with
  | nil => intro ls i h1 h2; simp at h2
  | cons w ws ih =>
    intro ls i h1 h2
    cases ls with
    | nil => simp at h1
    | cons l ls =>
      cases i with
      | zero => simp [finalizeFields]
      | succ i =>
        simp only [List.length_cons] at h1 h2
        simpa [finalizeFields] using ih ls i (by omega) (by omega)

/-! ## Lemmas about the header-processing loop -/

theorem processHeaderLoop_FieldLabels (p : String) (labels : List String) :
    ∀ st : TopicState,
      (processHeaderLoop p st labels).FieldLabels
        = st.FieldLabels ++ labels.filterMap (keepLabel p) := by
  induction labels with
  | nil => intro st; simp [processHeaderLoop]
  | cons l ls ih =>
    intro st
    by_cases h1 : l = "%time"
    · simp [processHeaderLoop, keepLabel, h1, ih]
    · by_cases h2 : isTripleMarker p l
      · simp [processHeaderLoop, keepLabel, h1, h2, ih]
      · by_cases h3 : l.take p.length = p
        · simp [processHeaderLoop, keepLabel, h1, h2, h3, ih]
        · simp [processHeaderLoop, keepLabel, h1, h2, h3, ih]

theorem isTripleMarker_time (p : String) : isTripleMarker p "%time" = false := by
  have hseq : ¬ (("%time" : String) = p ++ "header.seq") := by
    intro h
    have hl := congrArg String.length h
    rw [String.length_append] at hl
    have h1 : ("%time" : String).length = 5 := rfl
    have h2 : ("header.seq" : String).length = 10 := rfl
    omega
  have hstamp : ¬ (("%time" : String) = p ++ "header.stamp") := by
    intro h
    have hl := congrArg String.length h
    rw [String.length_append] at hl
    have h1 : ("%time" : String).length = 5 := rfl
    have h2 : ("header.stamp" : String).length = 12 := rfl
    omega
  have hframe : ¬ (("%time" : String) = p ++ "header.frame_id") := by
    intro h
    have hl := congrArg String.length h
    rw [String.length_append] at hl
    have h1 : ("%time" : String).length = 5 := rfl
    have h2 : ("header.frame_id" : String).length = 15 := rfl
    omega
  simp [isTripleMarker, beq_eq_false_iff_ne, hseq, hstamp, hframe]

theorem processHeaderLoop_has_header (p : String) (labels : List String) :
    ∀ st : TopicState,
      (processHeaderLoop p st labels).has_header
        = (st.has_header || labels.any (fun l => isTripleMarker p l)) := by
  induction labels with
  | nil => intro st; simp [processHeaderLoop]
  | cons l ls ih =>
    intro st
    by_cases h1 : l = "%time"
    · simp [processHeaderLoop, h1, ih, isTripleMarker_time]
    · by_cases h2 : isTripleMarker p l
      · simp [processHeaderLoop, h1, h2, ih]
      · by_cases h3 : l.take p.length = p
        · simp [processHeaderLoop, h1, h2, h3, ih]
        · simp [processHeaderLoop, h1, h2, h3, ih]

theorem processHeaderLoop_pres (p : String) (labels : List String) :
    ∀ st : TopicState,
      (processHeaderLoop p st labels).Name = st.Name ∧
      (processHeaderLoop p st labels).Messages = st.Messages ∧
      (processHeaderLoop p st labels).is_initialized = st.is_initialized ∧
      (processHeaderLoop p st labels).is_fault_topic = st.is_fault_topic ∧
      (processHeaderLoop p st labels).len_seqid = st.len_seqid ∧
      (processHeaderLoop p st labels).len_stamp = st.len_stamp ∧
      (processHeaderLoop p st labels).len_frameid = st.len_frameid ∧
      (processHeaderLoop p st labels).len_fields = st.len_fields ∧
      (processHeaderLoop p st labels).orig_field_labels = st.orig_field_labels := by
  induction labels with
  | nil => intro st; simp [processHeaderLoop]
  | cons l ls ih =>
    intro st
    by_cases h1 : l = "%time"
    · simpa [processHeaderLoop, h1] using ih st
    · by_cases h2 : isTripleMarker p l
      · simpa [processHeaderLoop, h1, h2] using ih _
      · by_cases h3 : l.take p.length = p
        · simpa [processHeaderLoop, h1, h2, h3] using ih _
        · simpa [processHeaderLoop, h1, h2, h3] using ih _

/-! ## Lemmas about `Topic.ProcessHeader` -/

theorem ProcessHeader_FieldLabels (p : String) (st : TopicState) :
    (Topic.ProcessHeader p st).FieldLabels
      = st.FieldLabels ++ st.orig_field_labels.filterMap (keepLabel p) := by
  simp [Topic.ProcessHeader, processHeaderLoop_FieldLabels]

theorem ProcessHeader_has_header (p : String) (st : TopicState) :
    (Topic.ProcessHeader p st).has_header
      = (st.has_header || st.orig_field_labels.any (fun l => isTripleMarker p l)) := by
  simp [Topic.ProcessHeader, processHeaderLoop_has_header]

theorem ProcessHeader_pres (p : String) (st : TopicState) :
    (Topic.ProcessHeader p st).Name = st.Name ∧
    (Topic.ProcessHeader p st).Messages = st.Messages ∧
    (Topic.ProcessHeader p st).is_initialized = st.is_initialized ∧
    (Topic.ProcessHeader p st).is_fault_topic = st.is_fault_topic ∧
    (Topic.ProcessHeader p st).orig_field_labels = st.orig_field_labels := by
  have h := processHeaderLoop_pres p st.orig_field_labels st
  simp only [Topic.ProcessHeader]
  exact ⟨h.1, h.2.1, h.2.2.1, h.2.2.2.1, h.2.2.2.2.2.2.2.2⟩

theorem ProcessHeader_len_seqid (p : String) (st : TopicState) :
    (Topic.ProcessHeader p st).len_seqid = max st.len_seqid hdr_seq.length := by
  have h := processHeaderLoop_pres p st.orig_field_labels st
  simp only [Topic.ProcessHeader]
  rw [h.2.2.2.2.1]

theorem ProcessHeader_len_stamp (p : String) (st : TopicState) :
    (Topic.ProcessHeader p st).len_stamp = max st.len_stamp hdr_stamp.length := by
  have h := processHeaderLoop_pres p st.orig_field_labels st
  simp only [Topic.ProcessHeader]
  rw [h.2.2.2.2.2.1]

theorem ProcessHeader_len_frameid (p : String) (st : TopicState) :
    (Topic.ProcessHeader p st).len_frameid = max st.len_frameid hdr_frid.length := by
  have h := processHeaderLoop_pres p st.orig_field_labels st
  simp only [Topic.ProcessHeader]
  rw [h.2.2.2.2.2.2.1]

theorem ProcessHeader_len_fields (p : String) (st : TopicState) :
    (Topic.ProcessHeader p st).len_fields
      = finalizeFields st.len_fields ((Topic.ProcessHeader p st).FieldLabels) := by
  have h := processHeaderLoop_pres p st.orig_field_labels st
  simp only [Topic.ProcessHeader]
  rw [h.2.2.2.2.2.2.2.1]

/-! ## Lemmas about the data-row loop `readRows` -/

theorem readRows_pres (p : String) (rows : List (List String)) :
    ∀ (st : TopicState) (n : Nat),
      (readRows p st rows n).1.Name = st.Name ∧
      (readRows p st rows n).1.FileName = st.FileName ∧
      (readRows p st rows n).1.FieldLabels = st.FieldLabels ∧
      (readRows p st rows n).1.orig_field_labels = st.orig_field_labels ∧
      (readRows p st rows n).1.has_header = st.has_header ∧
      (readRows p st rows n).1.is_initialized = st.is_initialized ∧
      (readRows p st rows n).1.is_fault_topic = st.is_fault_topic := by
  induction rows with
  | nil => intro st n; simp [readRows]
  | cons row rest ih =>
    intro st n
    by_cases h : st.orig_field_labels.length < (padTokens row st.orig_field_labels.length).length
    · simp [readRows, h]
    · simpa [readRows, h, Topic.TokensToMessage] using ih _ (n + 1)

theorem readRows_no_overflow (p : String) (rows : List (List String)) :
    ∀ (st : TopicState) (n : Nat),
      (∀ r ∈ rows, r.length ≤ st.orig_field_labels.length) →
      (readRows p st rows n).2 = [] := by
  induction rows with
  | nil => intro st n _; simp [readRows]
  | cons row rest ih =>
    intro st n hwf
    have hrow : row.length ≤ st.orig_field_labels.length := hwf row (by simp)
    have hpad : ¬ st.orig_field_labels.length < (padTokens row st.orig_field_labels.length).length := by
      rw [padTokens_length]
      omega
    have hrest : ∀ r ∈ rest, r.length ≤ st.orig_field_labels.length := by
      intro r hr
      exact hwf r (by simp [hr])
    simp only [readRows, hpad, if_false, ite_false]
    exact ih _ (n + 1) (by simpa [Topic.TokensToMessage] using hrest)

theorem readRows_Messages (p : String) (rows : List (List String)) :
    ∀ (st : TopicState) (n : Nat),
      (∀ r ∈ rows, r.length ≤ st.orig_field_labels.length) →
      (readRows p st rows n).1.Messages
        = st.Messages ++ rows.map (rowMsg p st.orig_field_labels) := by
  induction rows with
  | nil => intro st n _; simp [readRows]
  | cons row rest ih =>
    intro st n hwf
    have hrow : row.length ≤ st.orig_field_labels.length := hwf row (by simp)
    have hpad : ¬ st.orig_field_labels.length < (padTokens row st.orig_field_labels.length).length := by
      rw [padTokens_length]
      omega
    have hrest : ∀ r ∈ rest, r.length ≤ st.orig_field_labels.length := by
      intro r hr
      exact hwf r (by simp [hr])
    simp only [readRows, hpad, if_false, ite_false]
    rw [ih _ (n + 1) (by simpa [Topic.TokensToMessage] using hrest)]
    simp [Topic.TokensToMessage, rowMsg]

theorem readRows_len_fields_length (p : String) (rows : List (List String)) :
    ∀ (st : TopicState) (n : Nat),
      (∀ r ∈ rows, r.length ≤ st.orig_field_labels.length) →
      (readRows p st rows n).1.len_fields.length
        = if rows = [] then st.len_fields.length
          else max st.len_fields.length
            ((st.orig_field_labels.filterMap (keepLabel p)).length) := by
  induction rows with
  | nil => intro st n _; simp [readRows]
  | cons row rest ih =>
    intro st n hwf
    have hrow : row.length ≤ st.orig_field_labels.length := hwf row (by simp)
    have hpadlen : (padTokens row st.orig_field_labels.length).length
        = st.orig_field_labels.length := by
      rw [padTokens_length]
      omega
    have hpad : ¬ st.orig_field_labels.length < (padTokens row st.orig_field_labels.length).length := by
      omega
    have hrest : ∀ r ∈ rest, r.length ≤ st.orig_field_labels.length := by
      intro r hr
      exact hwf r (by simp [hr])
    simp only [readRows, hpad, if_false, ite_false]
    rw [ih _ (n + 1) (by simpa [Topic.TokensToMessage] using hrest)]
    have hglen : ((Message.TokensToMessage p (padTokens row st.orig_field_labels.length)
        st.orig_field_labels).2.2.2.2).length
        = (st.orig_field_labels.filterMap (keepLabel p)).length := by
      simp only [Message.TokensToMessage]
      rw [List.length_map]
      exact genericTokens_length p st.orig_field_labels _ hpadlen
    by_cases hrest0 : rest = []
    · simp [hrest0, Topic.TokensToMessage, mergeWidths_length, hglen]
    · simp only [hrest0, if_false, ite_false, Topic.TokensToMessage]
      simp [mergeWidths_length, hglen]

theorem readRows_overflow (p : String) (good : List (List String)) :
    ∀ (st : TopicState) (n : Nat) (bad : List String) (rest : List (List String)),
      (∀ r ∈ good, r.length ≤ st.orig_field_labels.length) →
      st.orig_field_labels.length < bad.length →
      readRows p st (good ++ bad :: rest) n
        = ((readRows p st good n).1, [LoadError.RowOverflow (n + good.length + 1)]) := by
  induction good with
  | nil =>
    intro st n bad rest _ hbad
    have hpad : st.orig_field_labels.length < (padTokens bad st.orig_field_labels.length).length := by
      rw [padTokens_length]
      omega
    simp [readRows, hpad]
  | cons row g ih =>
    intro st n bad rest hwf hbad
    have hrow : row.length ≤ st.orig_field_labels.length := hwf row (by simp)
    have hpad : ¬ st.orig_field_labels.length < (padTokens row st.orig_field_labels.length).length := by
      rw [padTokens_length]
      omega
    have hg : ∀ r ∈ g, r.length ≤ st.orig_field_labels.length := by
      intro r hr
      exact hwf r (by simp [hr])
    simp only [List.cons_append, readRows, hpad, if_false, ite_false]
    have hl : ∀ st2 : TopicState, readRows p st2 (g.append (bad :: rest)) (n + 1)
        = readRows p st2 (g ++ bad :: rest) (n + 1) := fun _ => rfl
    rw [hl]
    rw [ih _ (n + 1) bad rest (by simpa [Topic.TokensToMessage] using hg)
      (by simpa [Topic.TokensToMessage] using hbad)]
    simp only [List.length_cons]
    have harith : n + 1 + g.length + 1 = n + (g.length + 1) + 1 := by omega
    rw [harith]

/-! ## Unfolding lemmas for `Topic.ReadFromFile` -/

theorem ReadFromFile_none (p fp : String) (st : TopicState) (fn : String) :
    Topic.ReadFromFile p fp st fn none
      = (⟨st.Name, fn, [], [], false, false, 0, 0, 0, [], [], false⟩, false,
          [LoadError.IOError]) := rfl

theorem ReadFromFile_nil (p fp : String) (st : TopicState) (fn : String) :
    Topic.ReadFromFile p fp st fn (some [])
      = (⟨st.Name, fn, [], [], false, false, 0, 0, 0, [], [], false⟩, false,
          [LoadError.MissingHeader]) := rfl

theorem ReadFromFile_cons_state (p fp : String) (st : TopicState) (fn : String)
    (hdr : List String) (rows : List (List String)) :
    (Topic.ReadFromFile p fp st fn (some (hdr :: rows))).1
      = (fun st2 : TopicState =>
          { st2 with
            is_fault_topic :=
              if fp.length ≤ st2.Name.length then st2.Name.take fp.length == fp
              else st2.is_fault_topic,
            is_initialized := true })
        (Topic.ProcessHeader p
          (readRows p ⟨st.Name, fn, [], [], false, false, 0, 0, 0, [], hdr, false⟩ rows 0).1) := rfl

theorem ReadFromFile_cons_ok (p fp : String) (st : TopicState) (fn : String)
    (hdr : List String) (rows : List (List String)) :
    (Topic.ReadFromFile p fp st fn (some (hdr :: rows))).2.1 = true := rfl

theorem ReadFromFile_cons_errs (p fp : String) (st : TopicState) (fn : String)
    (hdr : List String) (rows : List (List String)) :
    (Topic.ReadFromFile p fp st fn (some (hdr :: rows))).2.2
      = (readRows p ⟨st.Name, fn, [], [], false, false, 0, 0, 0, [], hdr, false⟩ rows 0).2 := rfl

theorem length_take_eq (s : String) (n : Nat) : (s.take n).length = min n s.length := by
  rw [String.take_eq]
  show (s.data.take n).length = _
  rw [List.length_take]
  rfl

theorem faultFlag_eq_true_iff (fp n : String) :
    faultFlag fp n = true ↔ (fp.length ≤ n.length ∧ n.take fp.length = fp) := by
  simp [faultFlag]

theorem faultFlag_short (fp n : String) (h : n.length < fp.length) :
    faultFlag fp n = false := by
  simp only [faultFlag, Bool.and_eq_false_iff, decide_eq_false_iff_not, not_le]
  left
  omega

theorem ReadFromFile_cons_Name (p fp : String) (st : TopicState) (fn : String)
    (hdr : List String) (rows : List (List String)) :
    (Topic.ReadFromFile p fp st fn (some (hdr :: rows))).1.Name = st.Name := by
  rw [ReadFromFile_cons_state]
  show (Topic.ProcessHeader p _).Name = st.Name
  rw [(ProcessHeader_pres p _).1, (readRows_pres p rows _ 0).1]

theorem ReadFromFile_cons_is_initialized (p fp : String) (st : TopicState) (fn : String)
    (hdr : List String) (rows : List (List String)) :
    (Topic.ReadFromFile p fp st fn (some (hdr :: rows))).1.is_initialized = true := rfl

theorem ReadFromFile_cons_fault (p fp : String) (st : TopicState) (fn : String)
    (hdr : List String) (rows : List (List String)) :
    (Topic.ReadFromFile p fp st fn (some (hdr :: rows))).1.is_fault_topic
      = faultFlag fp st.Name := by
  rw [ReadFromFile_cons_state]
  show (if fp.length ≤ (Topic.ProcessHeader p _).Name.length
        then (Topic.ProcessHeader p _).Name.take fp.length == fp
        else (Topic.ProcessHeader p _).is_fault_topic) = faultFlag fp st.Name
  rw [(ProcessHeader_pres p _).1, (readRows_pres p rows _ 0).1,
    (ProcessHeader_pres p _).2.2.2.1, (readRows_pres p rows _ 0).2.2.2.2.2.2]
  by_cases hc : fp.length ≤ st.Name.length
  · simp [hc, faultFlag]
  · simp [hc, faultFlag]

theorem ReadFromFile_cons_FieldLabels (p fp : String) (st : TopicState) (fn : String)
    (hdr : List String) (rows : List (List String)) :
    (Topic.ReadFromFile p fp st fn (some (hdr :: rows))).1.FieldLabels
      = hdr.filterMap (keepLabel p) := by
  rw [ReadFromFile_cons_state]
  show (Topic.ProcessHeader p _).FieldLabels = _
  rw [ProcessHeader_FieldLabels, (readRows_pres p rows _ 0).2.2.1,
    (readRows_pres p rows _ 0).2.2.2.1]
  simp

theorem ReadFromFile_cons_Messages (p fp : String) (st : TopicState) (fn : String)
    (hdr : List String) (rows : List (List String))
    (hwf : ∀ r ∈ rows, r.length ≤ hdr.length) :
    (Topic.ReadFromFile p fp st fn (some (hdr :: rows))).1.Messages
      = rows.map (rowMsg p hdr) := by
  rw [ReadFromFile_cons_state]
  show (Topic.ProcessHeader p _).Messages = _
  rw [(ProcessHeader_pres p _).2.1, readRows_Messages p rows _ 0 (by simpa using hwf)]
  rfl

theorem ReadFromFile_cons_len_seqid (p fp : String) (st : TopicState) (fn : String)
    (hdr : List String) (rows : List (List String)) :
    (Topic.ReadFromFile p fp st fn (some (hdr :: rows))).1.len_seqid
      = max (readRows p ⟨st.Name, fn, [], [], false, false, 0, 0, 0, [], hdr, false⟩
          rows 0).1.len_seqid hdr_seq.length := by
  rw [ReadFromFile_cons_state]
  exact ProcessHeader_len_seqid p _

theorem ReadFromFile_cons_len_stamp (p fp : String) (st : TopicState) (fn : String)
    (hdr : List String) (rows : List (List String)) :
    (Topic.ReadFromFile p fp st fn (some (hdr :: rows))).1.len_stamp
      = max (readRows p ⟨st.Name, fn, [], [], false, false, 0, 0, 0, [], hdr, false⟩
          rows 0).1.len_stamp hdr_stamp.length := by
  rw [ReadFromFile_cons_state]
  exact ProcessHeader_len_stamp p _

theorem ReadFromFile_cons_len_frameid (p fp : String) (st : TopicState) (fn : String)
    (hdr : List String) (rows : List (List String)) :
    (Topic.ReadFromFile p fp st fn (some (hdr :: rows))).1.len_frameid
      = max (readRows p ⟨st.Name, fn, [], [], false, false, 0, 0, 0, [], hdr, false⟩
          rows 0).1.len_frameid hdr_frid.length := by
  rw [ReadFromFile_cons_state]
  exact ProcessHeader_len_frameid p _

theorem ReadFromFile_cons_len_fields (p fp : String) (st : TopicState) (fn : String)
    (hdr : List String) (rows : List (List String)) :
    (Topic.ReadFromFile p fp st fn (some (hdr :: rows))).1.len_fields
      = finalizeFields
          (readRows p ⟨st.Name, fn, [], [], false, false, 0, 0, 0, [], hdr, false⟩
            rows 0).1.len_fields
          ((Topic.ReadFromFile p fp st fn (some (hdr :: rows))).1.FieldLabels) := by
  rw [ReadFromFile_cons_state]
  exact ProcessHeader_len_fields p _

/-! ## Lemmas about the printing loop -/

theorem join_cons_eq (s : String) (l : List String) :
    String.join (s :: l) = s ++ String.join l := by
  cases s with
  | mk d =>
    rw [String.join_eq, String.join_eq]
    simp only [List.map_cons, List.flatten_cons]
    rfl

theorem printLoop_eq (st : TopicState) (sep : String) (stop : Int) :
    ∀ i : Int, 0 ≤ i →
      printLoop st sep stop i
        = (String.join ((List.range ((min stop (st.Messages.length : Int) - i).toNat)).map
              (fun k : Nat => printedLine st sep (i + (k : Int)))),
            (min stop (st.Messages.length : Int) - i).toNat) := by
  intro i hi
  generalize hn : (stop - i).toNat = n
  induction n generalizing i with
  | zero =>
    have hc : ¬ (i < stop ∧ i < (st.Messages.length : Int)) := by omega
    have hz : (min stop (st.Messages.length : Int) - i).toNat = 0 := by omega
    rw [printLoop, dif_neg hc, hz]
    simp [String.join]
  | succ n ih =>
    by_cases hc : i < stop ∧ i < (st.Messages.length : Int)
    · rw [printLoop, dif_pos hc]
      rw [ih (i + 1) (by omega) (by omega)]
      have hpos : 0 < (min stop (st.Messages.length : Int) - i).toNat := by omega
      obtain ⟨c, hcdef⟩ : ∃ c, (min stop (st.Messages.length : Int) - i).toNat = c + 1 :=
        ⟨(min stop (st.Messages.length : Int) - i).toNat - 1, by omega⟩
      have hc1 : (min stop (st.Messages.length : Int) - (i + 1)).toNat = c := by omega
      rw [hcdef, hc1, List.range_succ_eq_map]
      rw [List.map_cons, join_cons_eq, List.map_map]
      have hmap : (List.range c).map ((fun k : Nat => printedLine st sep (i + (k : Int))) ∘ Nat.succ)
          = (List.range c).map (fun k : Nat => printedLine st sep (i + 1 + (k : Int))) := by
        apply List.map_congr_left
        intro k _
        simp only [Function.comp]
        have harith : i + ((k + 1 : Nat) : Int) = i + 1 + (k : Int) := by push_cast; ring
        rw [harith]
      have hzero : i + ((0 : Nat) : Int) = i := by simp
      rw [hmap, hzero]
    · have hz : (min stop (st.Messages.length : Int) - i).toNat = 0 := by omega
      rw [printLoop, dif_neg hc, hz]
      simp [String.join]

/-! ## Claim theorems -/

/-- C1 (counterexample): the claimed invariant
`FieldLabels.size() == len_fields.size()` fails on a well-formed file with
a header line and zero data rows: loading a file whose header is the
single generic label `field.x` succeeds (`ReadFromFile` returns `true`),
yet `FieldLabels` has one entry while `len_fields` is empty, because the
per-field widths are only ever created while converting data rows. -/
theorem C1_zero_rows_counterexample :
    (Topic.ReadFromFile "field." "failure" initTopic "f.csv" (some [["field.x"]])).2.1 = true ∧
    (Topic.ReadFromFile "field." "failure" initTopic "f.csv" (some [["field.x"]])).1.FieldLabels.length = 1 ∧
    (Topic.ReadFromFile "field." "failure" initTopic "f.csv" (some [["field.x"]])).1.len_fields.length = 0 ∧
    ¬ ((Topic.ReadFromFile "field." "failure" initTopic "f.csv" (some [["field.x"]])).1.FieldLabels.length
        = (Topic.ReadFromFile "field." "failure" initTopic "f.csv" (some [["field.x"]])).1.len_fields.length) := by
  decide

/-- C1 (amended): for every well-formed input file with a readable header
line and AT LEAST ONE data row, each row having at most as many tokens as
the header has columns, `ReadFromFile` succeeds and the number of
normalized field labels equals the number of tracked per-field widths:
`FieldLabels.size() == len_fields.size()`. -/
theorem C1_labels_widths_aligned (p fp : String) (st : TopicState) (fn : String)
    (hdr : List String) (rows : List (List String))
    (hne : rows ≠ [])
    (hwf : ∀ r ∈ rows, r.length ≤ hdr.length) :
    (Topic.ReadFromFile p fp st fn (some (hdr :: rows))).2.1 = true ∧
    (Topic.ReadFromFile p fp st fn (some (hdr :: rows))).1.FieldLabels.length
      = (Topic.ReadFromFile p fp st fn (some (hdr :: rows))).1.len_fields.length := by
  refine ⟨ReadFromFile_cons_ok p fp st fn hdr rows, ?_⟩
  rw [ReadFromFile_cons_FieldLabels, ReadFromFile_cons_len_fields, finalizeFields_length]
  rw [readRows_len_fields_length p rows _ 0 (by simpa using hwf)]
  simp [hne]

/-- C1 (witness for the amended theorem): a one-column header with one
data row gives one normalized label and one tracked width. -/
theorem C1_labels_widths_aligned_witness :
    (Topic.ReadFromFile "field." "failure" initTopic "f.csv"
        (some [["field.x"], ["3.14"]])).1.FieldLabels.length
      = (Topic.ReadFromFile "field." "failure" initTopic "f.csv"
          (some [["field.x"], ["3.14"]])).1.len_fields.length :=
  (C1_labels_widths_aligned "field." "failure" initTopic "f.csv" ["field.x"] [["3.14"]]
    (by decide) (by decide)).2

/-- C2: `ProcessHeader` classifies each raw label in order: a label equal
to `%time` is excluded from `FieldLabels`; a label equal to the
field-name prefix followed by `header.seq`, `header.stamp` or
`header.frame_id` is excluded and makes `has_header` true; every other
label is appended to `FieldLabels`, with the prefix stripped when the
label starts with it and unchanged otherwise.  Order and duplicates are
preserved (the normalized labels are exactly the in-order `filterMap` of
the per-label classifier `keepLabel`), and an empty label list appends
nothing and leaves `has_header` as it was (in particular `false` on the
cleared state a load uses). -/
theorem C2_header_classification (p : String) (st : TopicState) :
    (Topic.ProcessHeader p st).FieldLabels
        = st.FieldLabels ++ st.orig_field_labels.filterMap (keepLabel p) ∧
    (Topic.ProcessHeader p st).has_header
        = (st.has_header || st.orig_field_labels.any (fun l => isTripleMarker p l)) :=
  ⟨ProcessHeader_FieldLabels p st, ProcessHeader_has_header p st⟩

/-- C8: after any load that runs to completion (the file opened and a
header line was read), `IsFaultTopic()` is true iff the topic's `Name` is
at least as long as the fault-topic prefix and its first prefix-length
characters equal that prefix; for every `Name` shorter than the prefix it
is false.  The flag is recomputed from `Name` on each completed load of
any starting state (including one whose fault flag was previously set). -/
theorem C8_fault_classification (p fp : String) (st : TopicState) (fn : String)
    (hdr : List String) (rows : List (List String)) :
    (Topic.IsFaultTopic (Topic.ReadFromFile p fp st fn (some (hdr :: rows))).1 = true
      ↔ (fp.length ≤ (Topic.ReadFromFile p fp st fn (some (hdr :: rows))).1.Name.length ∧
          (Topic.ReadFromFile p fp st fn (some (hdr :: rows))).1.Name.take fp.length = fp)) ∧
    ((Topic.ReadFromFile p fp st fn (some (hdr :: rows))).1.Name.length < fp.length →
      Topic.IsFaultTopic (Topic.ReadFromFile p fp st fn (some (hdr :: rows))).1 = false) := by
  constructor
  · rw [Topic.IsFaultTopic, ReadFromFile_cons_fault, ReadFromFile_cons_Name]
    exact faultFlag_eq_true_iff fp st.Name
  · intro hshort
    rw [ReadFromFile_cons_Name] at hshort
    rw [Topic.IsFaultTopic, ReadFromFile_cons_fault]
    exact faultFlag_short fp st.Name hshort

/-- C8 (witness): a name extending the fault prefix is classified as a
fault topic; a name shorter than the prefix is not. -/
theorem C8_fault_classification_witness :
    Topic.IsFaultTopic (Topic.ReadFromFile "field." "failure"
        { initTopic with Name := "failure_gps" } "f.csv" (some [["%time"]])).1 = true ∧
    Topic.IsFaultTopic (Topic.ReadFromFile "field." "failure"
        { initTopic with Name := "f" } "f.csv" (some [["%time"]])).1 = false :=
  ⟨(C8_fault_classification "field." "failure" { initTopic with Name := "failure_gps" }
      "f.csv" ["%time"] []).1.mpr ⟨by decide, by decide⟩,
    (C8_fault_classification "field." "failure" { initTopic with Name := "f" }
      "f.csv" ["%time"] []).2 (by decide)⟩

/-- C9: when the file cannot be opened, or it has no readable header
line, `ReadFromFile` returns `false`, `IsInitialized()` is `false`, and
no records are stored. -/
theorem C9_fatal_leaves_uninitialized (p fp : String) (st : TopicState) (fn : String) :
    ((Topic.ReadFromFile p fp st fn none).2.1 = false ∧
      Topic.IsInitialized (Topic.ReadFromFile p fp st fn none).1 = false ∧
      (Topic.ReadFromFile p fp st fn none).1.Messages = []) ∧
    ((Topic.ReadFromFile p fp st fn (some [])).2.1 = false ∧
      Topic.IsInitialized (Topic.ReadFromFile p fp st fn (some [])).1 = false ∧
      (Topic.ReadFromFile p fp st fn (some [])).1.Messages = []) := by
  rw [ReadFromFile_none, ReadFromFile_nil]
  exact ⟨⟨rfl, rfl, rfl⟩, ⟨rfl, rfl, rfl⟩⟩

/-- C3: when a data row has more tokens than the header has columns,
`ReadFromFile` stops at that row and reads no further rows (the stored
messages are exactly those of the earlier rows), reports the format error
with the 1-based data row number, still runs header finalization (the
normalized labels are produced and the scalar widths are raised to their
header labels) and fault classification, and leaves the topic marked
initialized — partial success, not atomicity. -/
theorem C3_row_overflow_stops (p fp : String) (st : TopicState) (fn : String)
    (hdr : List String) (good : List (List String)) (bad : List String)
    (rest : List (List String))
    (hgood : ∀ r ∈ good, r.length ≤ hdr.length)
    (hbad : hdr.length < bad.length) :
    (Topic.ReadFromFile p fp st fn (some (hdr :: (good ++ bad :: rest)))).2.2
        = [LoadError.RowOverflow (good.length + 1)] ∧
    (Topic.ReadFromFile p fp st fn (some (hdr :: (good ++ bad :: rest)))).1.Messages
        = good.map (rowMsg p hdr) ∧
    (Topic.ReadFromFile p fp st fn (some (hdr :: (good ++ bad :: rest)))).1.FieldLabels
        = hdr.filterMap (keepLabel p) ∧
    hdr_seq.length ≤ (Topic.ReadFromFile p fp st fn (some (hdr :: (good ++ bad :: rest)))).1.len_seqid ∧
    Topic.IsFaultTopic (Topic.ReadFromFile p fp st fn (some (hdr :: (good ++ bad :: rest)))).1
        = faultFlag fp st.Name ∧
    Topic.IsInitialized (Topic.ReadFromFile p fp st fn (some (hdr :: (good ++ bad :: rest)))).1
        = true := by
  have hover := readRows_overflow p good
    ⟨st.Name, fn, [], [], false, false, 0, 0, 0, [], hdr, false⟩ 0 bad rest
    (by simpa using hgood) (by simpa using hbad)
  refine ⟨?_, ?_, ?_, ?_, ?_, ?_⟩
  · rw [ReadFromFile_cons_errs, hover]
    simp
  · rw [ReadFromFile_cons_state]
    show (Topic.ProcessHeader p _).Messages = _
    rw [(ProcessHeader_pres p _).2.1, hover,
      readRows_Messages p good _ 0 (by simpa using hgood)]
    rfl
  · exact ReadFromFile_cons_FieldLabels p fp st fn hdr (good ++ bad :: rest)
  · rw [ReadFromFile_cons_len_seqid]
    exact Nat.le_max_right _ _
  · rw [Topic.IsFaultTopic, ReadFromFile_cons_fault]
  · rw [Topic.IsInitialized, ReadFromFile_cons_is_initialized]

/-- C3 (witness): a header with one column and a first data row with two
tokens stops the load at data row 1 with no stored messages, while the
topic is still initialized. -/
theorem C3_row_overflow_stops_witness :
    (Topic.ReadFromFile "field." "failure" initTopic "f.csv"
        (some [["%time"], ["1", "2"]])).2.2 = [LoadError.RowOverflow 1] :=
  (C3_row_overflow_stops "field." "failure" initTopic "f.csv" ["%time"] [] ["1", "2"] []
    (by decide) (by decide)).1

/-- C4 (counterexample): the claim presupposes a tracked width
`len_fields[i]` for every `i < FieldLabels.size()`, but after loading a
well-formed file whose header has one generic label and whose body has no
data rows, `FieldLabels` has one entry while `len_fields` is empty: index
0 has no tracked width (reading it with a 0 default gives 0, below the
label length 1). -/
theorem C4_zero_rows_counterexample :
    (Topic.ReadFromFile "field." "failure" initTopic "f.csv" (some [["field.x"]])).1.FieldLabels.length = 1 ∧
    (Topic.ReadFromFile "field." "failure" initTopic "f.csv" (some [["field.x"]])).1.len_fields = [] ∧
    (Topic.ReadFromFile "field." "failure" initTopic "f.csv" (some [["field.x"]])).1.len_fields.getD 0 0
      < ((Topic.ReadFromFile "field." "failure" initTopic "f.csv" (some [["field.x"]])).1.FieldLabels.getD 0 "").length := by
  decide

/-- C4 (amended): after any load that completes (header finalization has
run), each scalar width is at least the printed length of its label —
`len_seqid ≥ |"SeqID"|`, `len_stamp ≥ |"Time Stamp"|`,
`len_frameid ≥ |"Frame"|` — and for every generic-field index `i` below
`FieldLabels.size()` THAT HAS a tracked width (`i < len_fields.size()`),
the tracked width is at least the length of the normalized label. -/
theorem C4_widths_cover_labels (p fp : String) (st : TopicState) (fn : String)
    (hdr : List String) (rows : List (List String)) (i : Nat)
    (h1 : i < (Topic.ReadFromFile p fp st fn (some (hdr :: rows))).1.FieldLabels.length)
    (h2 : i < (Topic.ReadFromFile p fp st fn (some (hdr :: rows))).1.len_fields.length) :
    hdr_seq.length ≤ (Topic.ReadFromFile p fp st fn (some (hdr :: rows))).1.len_seqid ∧
    hdr_stamp.length ≤ (Topic.ReadFromFile p fp st fn (some (hdr :: rows))).1.len_stamp ∧
    hdr_frid.length ≤ (Topic.ReadFromFile p fp st fn (some (hdr :: rows))).1.len_frameid ∧
    ((Topic.ReadFromFile p fp st fn (some (hdr :: rows))).1.FieldLabels.getD i "").length
      ≤ (Topic.ReadFromFile p fp st fn (some (hdr :: rows))).1.len_fields.getD i 0 := by
  refine ⟨?_, ?_, ?_, ?_⟩
  · rw [ReadFromFile_cons_len_seqid]
    exact Nat.le_max_right _ _
  · rw [ReadFromFile_cons_len_stamp]
    exact Nat.le_max_right _ _
  · rw [ReadFromFile_cons_len_frameid]
    exact Nat.le_max_right _ _
  · rw [ReadFromFile_cons_len_fields] at h2 ⊢
    rw [finalizeFields_length] at h2
    exact finalizeFields_getD _ _ i h1 h2

/-- C4 (witness for the amended theorem): a one-column header with one
data row has a tracked width at index 0 covering its label. -/
theorem C4_widths_cover_labels_witness :
    ((Topic.ReadFromFile "field." "failure" initTopic "f.csv"
        (some [["field.x"], ["3.14"]])).1.FieldLabels.getD 0 "").length
      ≤ (Topic.ReadFromFile "field." "failure" initTopic "f.csv"
          (some [["field.x"], ["3.14"]])).1.len_fields.getD 0 0 :=
  (C4_widths_cover_labels "field." "failure" initTopic "f.csv" ["field.x"] [["3.14"]] 0
    (by decide) (by decide)).2.2.2

/-- C5 (counterexample): the row-overflow error is NOT signalled through
the status returned by `ReadFromFile`: on a file whose first data row has
more tokens than the header, a row-overflow diagnostic is emitted, yet
`ReadFromFile` returns `true` — the same value a fully successful load
returns — contradicting the claim that in each of the three fatal cases
the returned status signals the failure. -/
theorem C5_overflow_returns_true_counterexample :
    (Topic.ReadFromFile "field." "failure" initTopic "f.csv"
        (some [["%time"], ["1", "2"]])).2.2 = [LoadError.RowOverflow 1] ∧
    (Topic.ReadFromFile "field." "failure" initTopic "f.csv"
        (some [["%time"], ["1", "2"]])).2.1 = true := by
  decide

/-- C5 (amended): every one of the three fatal errors is reported to the
caller, but not all through the return status: an unopenable file and a
missing header line make `ReadFromFile` return `false` (each with its
diagnostic), while a data row with more tokens than the header emits a
format-error diagnostic identifying the 1-based row number and
`ReadFromFile` nevertheless returns `true`. -/
theorem C5_errors_reported (p fp : String) (st : TopicState) (fn : String)
    (hdr : List String) (good : List (List String)) (bad : List String)
    (rest : List (List String))
    (hgood : ∀ r ∈ good, r.length ≤ hdr.length)
    (hbad : hdr.length < bad.length) :
    ((Topic.ReadFromFile p fp st fn none).2.1 = false ∧
      (Topic.ReadFromFile p fp st fn none).2.2 = [LoadError.IOError]) ∧
    ((Topic.ReadFromFile p fp st fn (some [])).2.1 = false ∧
      (Topic.ReadFromFile p fp st fn (some [])).2.2 = [LoadError.MissingHeader]) ∧
    ((Topic.ReadFromFile p fp st fn (some (hdr :: (good ++ bad :: rest)))).2.2
        = [LoadError.RowOverflow (good.length + 1)] ∧
      (Topic.ReadFromFile p fp st fn (some (hdr :: (good ++ bad :: rest)))).2.1 = true) := by
  refine ⟨⟨?_, ?_⟩, ⟨?_, ?_⟩, ?_, ?_⟩
  · rw [ReadFromFile_none]
  · rw [ReadFromFile_none]
  · rw [ReadFromFile_nil]
  · rw [ReadFromFile_nil]
  · rw [ReadFromFile_cons_errs,
      readRows_overflow p good _ 0 bad rest (by simpa using hgood) (by simpa using hbad)]
    simp
  · exact ReadFromFile_cons_ok p fp st fn hdr (good ++ bad :: rest)

/-- C5 (witness for the amended theorem): on a concrete overflowing file
the diagnostic names data row 1 while the returned status is `true`. -/
theorem C5_errors_reported_witness :
    (Topic.ReadFromFile "field." "failure" initTopic "g.csv"
        (some [["%time"], ["1", "2", "3"]])).2.2 = [LoadError.RowOverflow 1] ∧
    (Topic.ReadFromFile "field." "failure" initTopic "g.csv"
        (some [["%time"], ["1", "2", "3"]])).2.1 = true :=
  (C5_errors_reported "field." "failure" initTopic "g.csv" ["%time"] [] ["1", "2", "3"] []
    (by decide) (by decide)).2.2

/-- C6 (code bug): `PrintHeader` promises (source comment, topic.h line
207) to return the length of the header line it printed, but on a topic
with at least one record and no header triple the returned total still
counts the seq/stamp/frame widths and their three separators, which are
not printed.  On the topic loaded from header `%time,field.x` with data
row `100,3.14` and separator `" | "`, the printed line (without its
newline) has 36 characters while the returned value is 53. -/
theorem C6_header_length_bug :
    (Topic.PrintHeader (Topic.ReadFromFile "field." "failure" initTopic "f.csv"
        (some [["%time", "field.x"], ["100", "3.14"]])).1 " | ").1
      = " | Index | Date/Time Stamp |    x | \n" ∧
    ((Topic.PrintHeader (Topic.ReadFromFile "field." "failure" initTopic "f.csv"
        (some [["%time", "field.x"], ["100", "3.14"]])).1 " | ").1.dropRight 1).length = 36 ∧
    (Topic.PrintHeader (Topic.ReadFromFile "field." "failure" initTopic "f.csv"
        (some [["%time", "field.x"], ["100", "3.14"]])).1 " | ").2 = 53 ∧
    (Topic.PrintHeader (Topic.ReadFromFile "field." "failure" initTopic "f.csv"
        (some [["%time", "field.x"], ["100", "3.14"]])).1 " | ").2
      ≠ ((Topic.PrintHeader (Topic.ReadFromFile "field." "failure" initTopic "f.csv"
          (some [["%time", "field.x"], ["100", "3.14"]])).1 " | ").1.dropRight 1).length := by
  decide

/-- C6 (zero-record part, which does hold): on a topic with no records
`PrintHeader` prints nothing and returns 0. -/
theorem C6_zero_records_header (st : TopicState) (sep : String)
    (h : st.Messages = []) :
    Topic.PrintHeader st sep = ("", 0) := by
  rw [Topic.PrintHeader, h]

/-- C6 (witness for the zero-record part). -/
theorem C6_zero_records_header_witness :
    Topic.PrintHeader initTopic " | " = ("", 0) :=
  C6_zero_records_header initTopic " | " rfl

/-- C7: `Print(startIndex, count, separator)` returns 0 and emits nothing
when `startIndex < 0`; otherwise, with a negative count meaning all
remaining records, it emits the header once (followed by the dash rule of
the returned header length), then one line per record whose index lies in
`[startIndex, startIndex + count)` clamped to the record count, and
returns the number of record lines emitted — the header line is not
counted. -/
theorem C7_print_characterization (st : TopicState) (n_start n_count : Int) (sep : String) :
    Topic.Print st n_start n_count sep
      = if n_start < 0 then ("", 0)
        else
          ((Topic.PrintHeader st sep).1
              ++ (String.mk (List.replicate (Topic.PrintHeader st sep).2 '-') ++ "\n")
              ++ String.join ((List.range
                    ((min (n_start + (if n_count < 0 then (st.Messages.length : Int) else n_count))
                        (st.Messages.length : Int) - n_start).toNat)).map
                  (fun k : Nat => printedLine st sep (n_start + (k : Int)))),
            (min (n_start + (if n_count < 0 then (st.Messages.length : Int) else n_count))
                (st.Messages.length : Int) - n_start).toNat) := by
  by_cases h : n_start < 0
  · simp [Topic.Print, h]
  · simp only [Topic.Print, h, if_false, ite_false]
    rw [printLoop_eq st sep
      (n_start + (if n_count < 0 then (st.Messages.length : Int) else n_count)) n_start
      (by omega)]

/-- C10: on a topic with at least one record, `Print` with a non-negative
start index that selects no records (start at or beyond the record count,
or a zero count) still prints the header line and the dash rule before
returning 0 — a zero return value does not mean no output. -/
theorem C10_empty_range_still_prints (st : TopicState) (n_start n_count : Int)
    (sep : String)
    (hne : st.Messages ≠ [])
    (h0 : 0 ≤ n_start)
    (hsel : (st.Messages.length : Int) ≤ n_start ∨ n_count = 0) :
    Topic.Print st n_start n_count sep
      = ((Topic.PrintHeader st sep).1
          ++ (String.mk (List.replicate (Topic.PrintHeader st sep).2 '-') ++ "\n"), 0) ∧
    (Topic.PrintHeader st sep).1 ≠ "" := by
  constructor
  · have hns : ¬ n_start < 0 := by omega
    simp only [Topic.Print, hns, if_false, ite_false]
    rw [printLoop_eq st sep _ n_start h0]
    have hcnt : (min (n_start + (if n_count < 0 then (st.Messages.length : Int) else n_count))
        (st.Messages.length : Int) - n_start).toNat = 0 := by
      rcases hsel with hs | hs
      · have hmin := min_le_right
          (n_start + (if n_count < 0 then (st.Messages.length : Int) else n_count))
          (st.Messages.length : Int)
        omega
      · subst hs
        have hz : ¬ ((0 : Int) < 0) := by omega
        rw [if_neg hz]
        have hmin := min_le_left (n_start + 0) (st.Messages.length : Int)
        omega
    rw [hcnt]
    simp [String.join]
  · obtain ⟨m, ms, hm⟩ : ∃ m ms, st.Messages = m :: ms := by
      cases hmm : st.Messages with
      | nil => exact absurd hmm hne
      | cons a l => exact ⟨a, l, rfl⟩
    intro hempty
    simp only [Topic.PrintHeader, hm] at hempty
    have hlen := congrArg String.length hempty
    rw [String.length_append] at hlen
    have hnl : ("\n" : String).length = 1 := rfl
    have hz : ("" : String).length = 0 := rfl
    omega

/-- C10 (witness): on a loaded one-record topic, `Print 5 3` returns 0
but the output is the header line plus the dash rule. -/
theorem C10_empty_range_still_prints_witness :
    (Topic.PrintHeader (Topic.ReadFromFile "field." "failure" initTopic "f.csv"
        (some [["%time", "field.x"], ["100", "3.14"]])).1 " | ").1 ≠ "" :=
  (C10_empty_range_still_prints
    (Topic.ReadFromFile "field." "failure" initTopic "f.csv"
      (some [["%time", "field.x"], ["100", "3.14"]])).1 5 3 " | "
    (by decide) (by decide) (Or.inl (by decide))).2

end Alfa
